import Mathlib

/-!
Verification of the typst-mdx documentation converter.

The development shallowly embeds the two core Python modules,
`scripts/parser/html_to_mdx.py` and `scripts/parser/mdx_converter.py`,
into Lean.  Text is modelled as `List Char` (Python `str`); HTML trees
produced by BeautifulSoup are modelled by the inductive `Node`
(`Tag`/`NavigableString`); JSON page trees are modelled by `JPage`;
fallible code paths (Python exceptions) are modelled with `Except`;
writes to the file system are modelled by an explicit oracle so that
OS-level failures can be expressed.  Every definition is translated
directly from the source; deviations forced by the embedding (absent
parent pointers, external parser) are noted in the doc comments.
-/

/-! ## Python string primitives -/

/-- Python's default `str.strip()` whitespace set (ASCII part). -/
def isPySpace (c : Char) : Bool :=
  c == ' ' || c == '\t' || c == '\n' || c == '\r' || c == '\x0b' || c == '\x0c'

/-- `str.lstrip()` with no argument. -/
def pyLStripWs (s : List Char) : List Char := s.dropWhile isPySpace

/-- `str.rstrip()` with no argument. -/
def pyRStripWs (s : List Char) : List Char := (s.reverse.dropWhile isPySpace).reverse

/-- `str.strip()` with no argument. -/
def pyStripWs (s : List Char) : List Char := pyRStripWs (pyLStripWs s)

/-- `str.lstrip(ch)` for a single-character argument. -/
def pyLStripChar (ch : Char) (s : List Char) : List Char := s.dropWhile (· == ch)

/-- `str.strip(ch)` for a single-character argument. -/
def pyStripChar (ch : Char) (s : List Char) : List Char :=
  ((s.dropWhile (· == ch)).reverse.dropWhile (· == ch)).reverse

/-- Python `str.replace(pat, rep)` for a one-character pattern: such a
replacement is exactly a character-by-character substitution. -/
def replaceChar (pat : Char) (rep : List Char) : List Char → List Char
  | [] => []
  | c :: s => (if c = pat then rep else [c]) ++ replaceChar pat rep s

/-- Python `str.split(sep)` for a one-character separator: always returns
at least one (possibly empty) field. -/
def pySplitChar (sep : Char) : List Char → List (List Char)
  | [] => [[]]
  | c :: rest =>
    match pySplitChar sep rest with
    | [] => [[]]
    | cur :: rs => if c = sep then [] :: cur :: rs else (c :: cur) :: rs

/-- Python `sep.join(parts)`. -/
def joinSep (sep : List Char) : List (List Char) → List Char
  | [] => []
  | [p] => p
  | p :: ps => p ++ sep ++ joinSep sep ps

/-- Python substring test `pat in s`. -/
def containsSub (pat : List Char) : List Char → Bool
  | [] => pat.isEmpty
  | c :: rest => pat.isPrefixOf (c :: rest) || containsSub pat rest

/-- Mapping a character-to-string function over a string and concatenating,
used to describe single-character replacements. -/
def charConcatMap (f : Char → List Char) : List Char → List Char
  | [] => []
  | c :: s => f c ++ charConcatMap f s

/-! ## html_to_mdx.py: the escaping engine -/

/-- The characters `escape_mdx_text` rewrites, in the order the source
applies the replacements: backslash, ampersand, angle brackets, braces,
asterisk, underscore, backtick. -/
def mdxSpecialChars : List Char :=
  ['\\', '&', '<', '>', '\x7b', '\x7d', '*', '_', '\x60']

/-- `escape_mdx_text` from `html_to_mdx.py`: nine successive
`str.replace` passes, the backslash pass first. -/
def escape_mdx_text (s : List Char) : List Char :=
  replaceChar '\x60' ['\\', '\x60']
    (replaceChar '_' ['\\', '_']
      (replaceChar '*' ['\\', '*']
        (replaceChar '\x7d' ['\\', '\x7d']
          (replaceChar '\x7b' ['\\', '\x7b']
            (replaceChar '>' ['\\', '>']
              (replaceChar '<' ['\\', '<']
                (replaceChar '&' ['\\', '&']
                  (replaceChar '\\' ['\\', '\\'] s))))))))

/-- The per-character description of the escaping: a special character is
prefixed with a backslash, any other character is kept. -/
def escMdxChar (c : Char) : List Char :=
  if c ∈ mdxSpecialChars then ['\\', c] else [c]

/-- Removing the escape backslashes inserted by `escape_mdx_text`: a
backslash immediately followed by a special character is dropped and the
special character kept; everything else is kept. -/
def removeEscapes : List Char → List Char
  | [] => []
  | c :: s =>
    if c = '\\' then
      match s with
      | [] => ['\\']
      | d :: t =>
        if d ∈ mdxSpecialChars then d :: removeEscapes t
        else '\\' :: removeEscapes (d :: t)
    else c :: removeEscapes s

/-! ## The BeautifulSoup tree model

A parsed HTML fragment is a forest of nodes: `Node.text` models
`NavigableString`, `Node.tag` models `Tag` with its name, attribute
mapping and ordered children.  Attributes are modelled single-valued
(the converter reads only single-valued attributes; the dead
`isinstance(href, list)` branch of the source is therefore not
representable).  Parent pointers do not exist in a tree embedding; the
two places the source consults a parent (`code` outside `pre`,
skipping `tr`s whose parent is a `thead`) hold vacuously at every call
site and are noted at the definitions concerned. -/

inductive Node where
  | text (s : List Char)
  | tag (name : List Char) (attrs : List (List Char × List Char)) (children : List Node)

def nameOf : Node → List Char
  | .text _ => []
  | .tag n _ _ => n

def attrsOf : Node → List (List Char × List Char)
  | .text _ => []
  | .tag _ a _ => a

def childrenOf : Node → List Node
  | .text _ => []
  | .tag _ _ k => k

/-- `element.get(name)`: the attribute's value, if present. -/
def getAttr (attrs : List (List Char × List Char)) (nm : List Char) : Option (List Char) :=
  match attrs.find? (fun p => p.1 = nm) with
  | some p => some p.2
  | none => none

/-- `element.get(name, default)`. -/
def getAttrD (attrs : List (List Char × List Char)) (nm d : List Char) : List Char :=
  (getAttr attrs nm).getD d

/-- Python truthiness of an optional string: `None` and `""` are falsy. -/
def optTruthy : Option (List Char) → Bool
  | none => false
  | some s => !s.isEmpty

/-- Python `str(x)` on an optional string: `None` prints as `"None"`. -/
def pyStrOpt : Option (List Char) → List Char
  | none => "None".data
  | some s => s

mutual
/-- `element.get_text()`: concatenation of every descendant string. -/
def getText : Node → List Char
  | .text s => s
  | .tag _ _ kids => getTextList kids

def getTextList : List Node → List Char
  | [] => []
  | n :: ns => getText n ++ getTextList ns
end

mutual
/-- `element.get_text(strip=True)`: each descendant string stripped, then
concatenated. -/
def getTextStrip : Node → List Char
  | .text s => pyStripWs s
  | .tag _ _ kids => getTextStripList kids

def getTextStripList : List Node → List Char
  | [] => []
  | n :: ns => getTextStrip n ++ getTextStripList ns
end

/-- BeautifulSoup's minimal output formatter applied by `str(element)` to
text content: `&`, `<`, `>` become entities. -/
def htmlEntityChar (c : Char) : List Char :=
  if c = '&' then "&amp;".data
  else if c = '<' then "&lt;".data
  else if c = '>' then "&gt;".data
  else [c]

mutual
/-- `str(element)`: serialize a node back to markup, the way the source's
`span` and `details` branches do.  Attributes are emitted in stored order
as `name="value"`, text through the minimal formatter. -/
def nodeToHtml : Node → List Char
  | .text s => charConcatMap htmlEntityChar s
  | .tag nm attrs kids =>
    '<' :: nm ++
      (attrs.map (fun p => ' ' :: p.1 ++ "=\"".data ++ p.2 ++ "\"".data)).flatten ++
      ">".data ++ nodeToHtmlList kids ++ "</".data ++ nm ++ ">".data

def nodeToHtmlList : List Node → List Char
  | [] => []
  | n :: ns => nodeToHtml n ++ nodeToHtmlList ns
end

/-! ## html_to_mdx.py: style transliteration -/

/-- Python `str.capitalize()`: first character uppercased, the rest
lowercased. -/
def pyCapitalize : List Char → List Char
  | [] => []
  | c :: t => c.toUpper :: t.map Char.toLower

/-- The kebab-case → camelCase conversion inside `parse_style_to_jsx`:
`parts[0] + ''.join(p.capitalize() for p in parts[1:])`. -/
def camelProp (prop : List Char) : List Char :=
  if '-' ∈ prop then
    match pySplitChar '-' prop with
    | [] => []
    | p0 :: ps => p0 ++ (ps.map pyCapitalize).flatten
  else prop

/-- `parse_style_to_jsx` from `html_to_mdx.py`. -/
def parse_style_to_jsx (style_str : List Char) : List Char :=
  if style_str = [] then [] else
  let declarations := ((pySplitChar ';' style_str).map pyStripWs).filter (fun d => d ≠ [])
  let jsx_props := declarations.filterMap fun decl =>
    if ':' ∈ decl then
      let prop := camelProp (pyStripWs (decl.takeWhile (fun c => c ≠ ':')))
      let val := replaceChar '\x27' ['\\', '\x27']
        (pyStripWs ((decl.dropWhile (fun c => c ≠ ':')).drop 1))
      some (prop ++ ": \x27".data ++ val ++ "\x27".data)
    else none
  "\x7b\x7b".data ++ joinSep ", ".data jsx_props ++ "\x7d\x7d".data

/-! ## html_to_mdx.py: inline rendering -/

mutual
/-- `process_inline` (and the `"".join(...)` over children it uses):
dispatch on `img`, `span`, `a`, `strong`/`b`, `em`/`i`, `code`, with
every other tag falling through to the inline rendering of its
children.  The `span` branch returns `str(element)`. -/
def process_inline : Node → List Char
  | .text s => escape_mdx_text (replaceChar '\n' [' '] s)
  | .tag name attrs kids =>
    if name = "img".data then
      let src := getAttrD attrs "src".data []
      let alt := getAttrD attrs "alt".data []
      let style := getAttr attrs "style".data
      let a1 := "src=\"".data ++ src ++ "\" alt=\"".data ++ alt ++ "\"".data
      let a2 := if optTruthy style then
          a1 ++ " style=".data ++ parse_style_to_jsx ((style).getD [])
        else a1
      let a3 := if optTruthy (getAttr attrs "width".data) then
          a2 ++ " width=\"".data ++ getAttrD attrs "width".data [] ++ "\"".data
        else a2
      let a4 := if optTruthy (getAttr attrs "height".data) then
          a3 ++ " height=\"".data ++ getAttrD attrs "height".data [] ++ "\"".data
        else a3
      "<img ".data ++ a4 ++ " />".data
    else if name = "span".data then
      nodeToHtml (.tag name attrs kids)
    else if name = "a".data then
      let href := pyLStripChar '/' (getAttrD attrs "href".data [])
      let txt := pyStripWs (process_inline_list kids)
      '[' :: txt ++ "](".data ++ href ++ ")".data
    else if name = "strong".data ∨ name = "b".data then
      "**".data ++ getTextList kids ++ "**".data
    else if name = "em".data ∨ name = "i".data then
      '_' :: getTextList kids ++ "_".data
    else if name = "code".data then
      let t0 := pyStripWs (getTextList kids)
      let t := replaceChar '\x7d' ['\\', '\x7d'] (replaceChar '\x7b' ['\\', '\x7b'] t0)
      if t = ['\x60'] then "\x60\x60\x60".data
      else '\x60' :: t ++ "\x7b:typst\x7d\x60".data
    else process_inline_list kids

def process_inline_list : List Node → List Char
  | [] => []
  | n :: ns => process_inline n ++ process_inline_list ns
end

/-! ## html_to_mdx.py: block rendering -/

/-- `process_pre`: fenced code block, content right-trimmed, never escaped. -/
def process_pre (el : Node) : List Char :=
  "\x60\x60\x60typst\n".data ++ pyRStripWs (getText el) ++ "\n\x60\x60\x60".data

mutual
/-- `element.find(name)`: first matching descendant, preorder. -/
def findTagInList (nm : List Char) : List Node → Option Node
  | [] => none
  | n :: ns =>
    match findTagInNode nm n with
    | some r => some r
    | none => findTagInList nm ns

def findTagInNode (nm : List Char) : Node → Option Node
  | .text _ => none
  | .tag name attrs kids =>
    if name = nm then some (.tag name attrs kids) else findTagInList nm kids
end

mutual
/-- `element.find_all([names])`: every matching descendant, document order,
matches inside matches included. -/
def findAllInList (nms : List (List Char)) : List Node → List Node
  | [] => []
  | n :: ns => findAllInNode nms n ++ findAllInList nms ns

def findAllInNode (nms : List (List Char)) : Node → List Node
  | .text _ => []
  | .tag name attrs kids =>
    (if name ∈ nms then [Node.tag name attrs kids] else []) ++ findAllInList nms kids
end

/-- `element.find_all(name, recursive=False)`: matching direct children only. -/
def directChildTags (nm : List Char) (kids : List Node) : List Node :=
  kids.filter fun n =>
    match n with
    | .tag name _ _ => name = nm
    | .text _ => false

/-- One table cell: inline-rendered children, stripped, newlines collapsed
to spaces (`"".join(...).strip().replace("\n", " ")`). -/
def tableCellContent (cell : Node) : List Char :=
  replaceChar '\n' [' '] (pyStripWs (process_inline_list (childrenOf cell)))

/-- `process_table`.  Header cells come from the first `tr` of the first
`thead`, body rows from the direct `tr` children of the first `tbody` when
one exists, else from the table's own direct `tr` children.  The source's
`tr.parent.name == "thead"` skip is vacuous for rows found with
`recursive=False` (their parent is the `tbody` or the table itself), and
its duplicated `find_all` assignment is idempotent; neither needs a
counterpart here. -/
def process_table (el : Node) : List Char :=
  let headers :=
    match findTagInList "thead".data (childrenOf el) with
    | some thead =>
      match findTagInList "tr".data (childrenOf thead) with
      | some headerRow =>
        (findAllInList ["th".data, "td".data] (childrenOf headerRow)).map tableCellContent
      | none => []
    | none => []
  let headRows :=
    if headers.isEmpty then ([] : List (List Char))
    else ["| ".data ++ joinSep " | ".data headers ++ " |".data,
          "| ".data ++ joinSep " | ".data (headers.map fun _ => "---".data) ++ " |".data]
  let trList :=
    match findTagInList "tbody".data (childrenOf el) with
    | some tbody => directChildTags "tr".data (childrenOf tbody)
    | none => directChildTags "tr".data (childrenOf el)
  let bodyRows := trList.filterMap fun tr =>
    let cells := (findAllInList ["td".data, "th".data] (childrenOf tr)).map tableCellContent
    if cells.isEmpty then none
    else some ("| ".data ++ joinSep " | ".data cells ++ " |".data)
  joinSep "\n".data (headRows ++ bodyRows)

/-- `"  " * depth`. -/
def listIndent (depth : Nat) : List Char := (List.replicate depth "  ".data).flatten

/-- The list-entry marker: `f"{i+1}. "` for ordered lists, `"- "` otherwise. -/
def listMarker (ordered : Bool) (i : Nat) : List Char :=
  if ordered then (toString (i + 1)).data ++ ". ".data else "- ".data

mutual
/-- `process_list`: each direct `li` child becomes one entry; the index
`i` enumerates them; a nested `ul`/`ol` inside an `li` is rendered at
`depth + 1` and inserted, preceded by a newline, at its position in the
item's text; the item's accumulated text is stripped.  Appending an empty
inline rendering equals the source's skipping of falsy pieces. -/
def process_list (el : Node) (depth : Nat) : List Char :=
  match el with
  | .text _ => []
  | .tag name _ kids =>
    joinSep "\n".data (processListItems (name = "ol".data) depth 0 kids)

def processListItems (ordered : Bool) (depth i : Nat) : List Node → List (List Char)
  | [] => []
  | n :: ns =>
    match n with
    | .tag nm _ kids =>
      if nm = "li".data then
        (listIndent depth ++ listMarker ordered i ++ pyStripWs (processLiParts depth kids))
          :: processListItems ordered depth (i + 1) ns
      else processListItems ordered depth i ns
    | .text _ => processListItems ordered depth i ns

def processLiParts (depth : Nat) : List Node → List Char
  | [] => []
  | n :: ns =>
    (match n with
     | .tag nm attrs kids =>
       if nm = "ul".data ∨ nm = "ol".data then
         '\n' :: process_list (.tag nm attrs kids) (depth + 1)
       else process_inline (.tag nm attrs kids)
     | .text s => process_inline (.text s)) ++ processLiParts depth ns
end

/-- `textwrap.indent(text, prefix)`: the prefix is added to every line
that contains a non-whitespace character. -/
def textwrapIndent (s pre : List Char) : List Char :=
  joinSep ['\n'] ((pySplitChar '\n' s).map fun line =>
    if line.any (fun c => !(isPySpace c)) then pre ++ line else line)

/-- `process_preview_code`.  In the tree model a found `img` is always a
`Tag`, so the source's "unsupported image block" warning path cannot
arise. -/
def process_preview_code (el : Node) : List Char :=
  match findTagInList "pre".data (childrenOf el) with
  | none => []
  | some preBlock =>
    let codeText := pyRStripWs (getText preBlock)
    match findTagInList "img".data (childrenOf el) with
    | none => "\x60\x60\x60typst\n".data ++ codeText ++ "\n\x60\x60\x60".data
    | some imageBlock =>
      let src := getAttrD (attrsOf imageBlock) "src".data []
      let alt := getAttrD (attrsOf imageBlock) "alt".data []
      let codeEsc := textwrapIndent (replaceChar '\x60' ['\\', '\x60'] codeText) "  ".data
      let codeAttr := "\x7b\x60\n".data ++ codeEsc ++ "\n\x60\x7d".data
      "<TypstPreview\n  code=".data ++ codeAttr ++ "\n  image=\x27".data ++ src ++
        "\x27\n  alt=\x27".data ++ alt ++ "\x27\n  editable=\x7btrue\x7d\n/>".data

/-- Whitespace-splitting of a `class` attribute value into class tokens,
the way BeautifulSoup presents multi-valued attributes. -/
def splitWsAux (cur : List Char) : List Char → List (List Char)
  | [] => if cur.isEmpty then [] else [cur.reverse]
  | c :: rest =>
    if isPySpace c then
      if cur.isEmpty then splitWsAux [] rest else cur.reverse :: splitWsAux [] rest
    else splitWsAux (c :: cur) rest

def splitWsTokens (s : List Char) : List (List Char) := splitWsAux [] s

/-- Does this node carry the given CSS class? -/
def hasClass (cls : List Char) : Node → Bool
  | .text _ => false
  | .tag _ attrs _ => cls ∈ splitWsTokens (getAttrD attrs "class".data [])

/-- `find(class_=cls)` followed by `decompose()`: remove the first
descendant (preorder) carrying the class; report whether one was found. -/
def dropFirstClass (cls : List Char) : List Node → (Bool × List Node)
  | [] => (false, [])
  | n :: ns =>
    if hasClass cls n then (true, ns)
    else
      match n with
      | .text s =>
        let r := dropFirstClass cls ns
        (r.1, .text s :: r.2)
      | .tag nm a kids =>
        match dropFirstClass cls kids with
        | (true, kids') => (true, .tag nm a kids' :: ns)
        | (false, _) =>
          let r := dropFirstClass cls ns
          (r.1, .tag nm a kids :: r.2)

/-- `process_footnote_definition`: strip the label child, inline-render the
rest, key by the `id` attribute (`str(None)` when absent). -/
def process_footnote_definition (el : Node) : List Char :=
  let kids := (dropFirstClass "footnote-definition-label".data (childrenOf el)).2
  "[^".data ++ pyStrOpt (getAttr (attrsOf el) "id".data) ++ "]: ".data ++
    pyStripWs (process_inline_list kids)

/-- `process_heading`: `'#' * int(element.name[1]) + ' ' + get_text(strip=True)`. -/
def process_heading (el : Node) : List Char :=
  let level := ((nameOf el).getD 1 '0').toNat - '0'.toNat
  List.replicate level '#' ++ (' ' :: getTextStrip el)

mutual
/-- `process_element`: block-context dispatch.  `none` models Python's
`None` for whitespace-only text.  The `code` branch's
`element.parent.name != "pre"` guard holds at every call site (the
function is only applied to children of the fragment root or of a `div`),
so it has no counterpart here.  The info-box branch carries
`process_info_box`'s body inlined, see `process_info_box` below. -/
def process_element : Node → Option (List Char)
  | .text s =>
    let t := pyStripWs s
    if t.isEmpty then none else some (escape_mdx_text t)
  | .tag name attrs kids =>
    let classes := splitWsTokens (getAttrD attrs "class".data [])
    if name = "div".data then
      if "previewed-code".data ∈ classes then
        some (process_preview_code (.tag name attrs kids))
      else if "info-box".data ∈ classes then
        some ("<Callout>\n".data ++ joinSep "\n\n".data (process_element_list kids) ++
          "\n</Callout>".data)
      else if "footnote-definition".data ∈ classes then
        some (process_footnote_definition (.tag name attrs kids))
      else
        let childrenMd := process_inline_list kids
        let a1 := if classes.isEmpty then ([] : List Char)
          else " className=\"".data ++ joinSep " ".data classes ++ "\"".data
        let a2 := if optTruthy (getAttr attrs "style".data) then
            a1 ++ " style=".data ++ parse_style_to_jsx (getAttrD attrs "style".data [])
          else a1
        some ("<div".data ++ a2 ++ ">\n".data ++ childrenMd ++ "\n</div>".data)
    else if name = "a".data then
      some ('[' :: pyStripWs (process_inline_list kids) ++ "](".data ++
        pyLStripChar '/' (getAttrD attrs "href".data []) ++ ")".data)
    else if name = "p".data then
      some (process_inline_list kids)
    else if name ∈ ["h2".data, "h3".data, "h4".data, "h5".data, "h6".data] then
      some (process_heading (.tag name attrs kids))
    else if name = "code".data then
      some ('\x60' :: pyRStripWs (getTextList kids) ++ "\x7b:typst\x7d\x60".data)
    else if name = "pre".data then
      some (process_pre (.tag name attrs kids))
    else if name = "table".data then
      some (process_table (.tag name attrs kids))
    else if name = "span".data then
      some (process_inline (.tag name attrs kids))
    else if name = "details".data then
      some (nodeToHtml (.tag name attrs kids))
    else if name = "ul".data ∨ name = "ol".data then
      some (process_list (.tag name attrs kids) 0)
    else
      some (process_inline_list kids)

/-- The truthiness filter both callers apply to `process_element` results
(`if result:` in `html_to_mdx`, `filter(None, ...)` in
`process_info_box`): drop `None` and empty strings. -/
def process_element_list : List Node → List (List Char)
  | [] => []
  | n :: ns =>
    match process_element n with
    | some r => if r.isEmpty then process_element_list ns else r :: process_element_list ns
    | none => process_element_list ns
end

/-- `process_info_box`: block-render the children, keep the truthy
results, wrap in a `Callout`. -/
def process_info_box (el : Node) : List Char :=
  "<Callout>\n".data ++ joinSep "\n\n".data (process_element_list (childrenOf el)) ++
    "\n</Callout>".data

/-- The `for h1 in soup.find_all("h1"): h1.decompose()` pass: every `h1`
element is removed from the forest, at any depth. -/
def removeH1Forest : List Node → List Node
  | [] => []
  | .text s :: ns => .text s :: removeH1Forest ns
  | .tag nm a kids :: ns =>
    if nm = "h1".data then removeH1Forest ns
    else .tag nm a (removeH1Forest kids) :: removeH1Forest ns

/-- The block-level rendering of a parsed forest: truthy block results
joined with blank lines. -/
def renderForest (f : List Node) : List Char :=
  joinSep "\n\n".data (process_element_list f)

/-- `html_to_mdx`.  BeautifulSoup itself is outside the repository, so the
parse is a parameter: `parse` yields the forest the source iterates
(`soup.body.children` when a `body` element exists, `soup.children`
otherwise).  An empty input short-circuits to the empty string. -/
def html_to_mdx (parse : List Char → List Node) (html_content : List Char) : List Char :=
  if html_content.isEmpty then []
  else renderForest (removeH1Forest (parse html_content))

/-! ## mdx_converter.py: typed payload model

The converter consumes JSON payloads duck-typed in Python.  The model
types them after the schema the code reads (§3 of the repository's
design): payloads whose shape would crash the Python renderer (for
example a `category` payload under kind `"html"`) are outside the typed
model and surface as `Except.error` only at the `render_body` dispatch,
where the kind string is checked against the content's variant. -/

/-- The content of a tagged segment inside a `render_generic` list: a raw
HTML string, or an `example` object with an optional `body` field. -/
inductive GenContent where
  | cstr (s : List Char)
  | cex (body : Option (List Char))

/-- One element of a `render_generic` list: a dict with optional `kind`
and `content`, a plain string, or anything else (skipped). -/
inductive GenItem where
  | gdict (kind : Option (List Char)) (content : Option GenContent)
  | gistr (s : List Char)
  | giother

/-- The argument of `render_generic`: `Union[str, list, dict]`; `gother`
covers the dict/other case, which renders empty. -/
inductive Generic where
  | gstr (s : List Char)
  | glist (items : List GenItem)
  | gother

/-- `item.get("content") or ""` for an `"html"` segment. -/
def contentHtmlStr : Option GenContent → List Char
  | some (.cstr s) => s
  | _ => []

/-- `(item.get("content") or {}).get("body", "")` for an `"example"`
segment. -/
def contentExBody : Option GenContent → List Char
  | some (.cex b) => b.getD []
  | _ => []

/-- The loop body of `render_generic` over a list payload: `"html"` and
`"example"` segments and plain strings are rendered, everything else is
skipped; a dict without a truthy `kind` defaults to `"html"`. -/
def renderGenericItems (parse : List Char → List Node) : List GenItem → List (List Char)
  | [] => []
  | .gdict kind content :: rest =>
    let k := if optTruthy kind then kind.getD [] else "html".data
    if k = "html".data then
      html_to_mdx parse (contentHtmlStr content) :: renderGenericItems parse rest
    else if k = "example".data then
      html_to_mdx parse (contentExBody content) :: renderGenericItems parse rest
    else renderGenericItems parse rest
  | .gistr s :: rest => html_to_mdx parse s :: renderGenericItems parse rest
  | .giother :: rest => renderGenericItems parse rest

/-- `render_generic`: falsy input renders empty, a string goes through
`html_to_mdx`, a list is rendered item-wise and joined with blank lines,
anything else renders empty. -/
def render_generic (parse : List Char → List Node) : Generic → List Char
  | .gstr s => if s.isEmpty then [] else html_to_mdx parse s
  | .glist items =>
    if items.isEmpty then [] else joinSep "\n\n".data (renderGenericItems parse items)
  | .gother => []

/-- A function parameter as `render_func`/`render_params_md` read it. -/
structure Param where
  name : List Char
  types : List (List Char)
  details : Generic
  dfault : Option Generic
  named : Bool

/-- `render_params_md`: one `###` subsection per parameter. -/
def render_params_md (parse : List Char → List Node) (params : List Param) : List Char :=
  if params.isEmpty then [] else
  joinSep "\n\n".data (params.map fun p =>
    let types :=
      let t := joinSep " | ".data p.types
      if t.isEmpty then "any".data else t
    let description := pyStripWs (render_generic parse p.details)
    let dflt := render_generic parse (p.dfault.getD (Generic.gstr []))
    let default_str := if dflt.isEmpty then [] else "Default: ".data ++ dflt
    "### ".data ++ p.name ++ " (".data ++ types ++ ")\n\n".data ++ description ++
      "\n\n".data ++ default_str) ++ "\n".data

/-- A structured example: a dict carrying a `body` field, or any other
value handed to `render_generic`. -/
inductive ExVal where
  | withBody (body : List Char)
  | generic (g : Generic)

/-- A function payload as `render_func` reads it: `name`, ancestry
`path`, `details`, parameter list, optional `returns`, optional
`example`, nested `scope`. -/
inductive Func where
  | mk (name : List Char) (path : List (List Char)) (details : Generic)
    (params : List Param) (rets : Option (List (List Char)))
    (exmpl : Option ExVal) (scope : List Func)

mutual
/-- `render_func`: details, then a signature code block and per-parameter
subsections when parameters exist, then the example, then the nested
scope one heading level deeper. -/
def render_func (parse : List Char → List Node) : Func → Nat → List Char
  | .mk name path details params rets exmpl scope, heading_level =>
    let head := List.replicate heading_level '#'
    let pathStr := joinSep ".".data (path ++ [name])
    let params_sig := params.map fun p =>
      if p.named then "  ".data ++ p.name ++ ": ".data ++ joinSep " | ".data p.types
      else "  ".data ++ p.name
    let r1 := render_generic parse details ++ "\n\n".data
    let r2 :=
      if params.isEmpty then r1
      else
        let signature := '#' :: pathStr ++ "(\n".data ++ joinSep ",\n".data params_sig ++
          "\n)".data
        let signature :=
          match rets with
          | some ret => signature ++ " -> ".data ++ joinSep " ".data ret
          | none => signature
        r1 ++ "\n".data ++ head ++ " Parameters\n\n".data ++ "\x60\x60\x60typst\n".data ++
          signature ++ "\n\x60\x60\x60\n\n".data ++ render_params_md parse params
    let r3 :=
      match exmpl with
      | none => r2
      | some (.withBody b) =>
        r2 ++ "\n**Example:**\n".data ++ html_to_mdx parse b ++ "\n".data
      | some (.generic g) =>
        r2 ++ "\n**Example:**\n".data ++ render_generic parse g ++ "\n".data
    if scope.isEmpty then r3
    else r3 ++ "\n".data ++ head ++ "# Definitions\n".data ++
      renderFuncScope parse scope (heading_level + 1)

def renderFuncScope (parse : List Char → List Node) : List Func → Nat → List Char
  | [], _ => []
  | f :: fs, lvl => render_func parse f lvl ++ renderFuncScope parse fs lvl
end

/-- One item of a category listing. -/
structure CatItem where
  route : List Char
  name : List Char
  oneliner : List Char

/-- A category payload. -/
structure Category where
  details : Generic
  items : List CatItem

/-- `render_category`: details, then a definitions table when items
exist. -/
def render_category (parse : List Char → List Node) (category : Category) : List Char :=
  let details := render_generic parse category.details
  if category.items.isEmpty then details
  else
    let rows := joinSep "\n".data (category.items.map fun item =>
      "    <tr>\n      <td width=\"20px\" align=\"center\">—</td>\n      <td><code><a href=\"".data
        ++ item.route ++ "\">".data ++ item.name ++
        "</a></code></td>\n      <td>".data ++ item.oneliner ++ "</td>\n    </tr>".data)
    let table :=
      "<table>\n  <thead>\n    <tr>\n      <th width=\"20px\"></th>\n      <th align=\"left\">Name</th>\n      <th align=\"left\">Description</th>\n    </tr>\n  </thead>\n  <tbody>\n".data
        ++ rows ++ "\n  </tbody>\n</table>".data
    details ++ "\n\n## Definitions\n\n".data ++ table ++ "\n".data

/-- A symbol row as `render_symbols` reads it; numeric codepoints appear
here already stringified (the source passes every field through
`str(...)`). -/
structure SymbolItem where
  name : List Char
  value : Option (List Char)
  codepoint : Option (List Char)
  mathClass : Option (List Char)
  mathShorthand : Option (List Char)

/-- A symbols payload. -/
structure Symbols where
  details : Generic
  list : List SymbolItem

/-- The narrower escaping set of `render_symbols.escape_special_chars`:
table-breaking characters only. -/
def symbolSpecialChars : List Char :=
  ['|', '\x60', '\x27', '"', '\\', '\x7b', '\x7d', '<', '>', '-']

def escSymbolChar (c : Char) : List Char :=
  if c ∈ symbolSpecialChars then ['\\', c] else [c]

/-- `escape_special_chars`, local to `render_symbols`. -/
def escape_special_chars (s : List Char) : List Char := charConcatMap escSymbolChar s

/-- Python `a or b` on optional strings. -/
def pyOr (a b : Option (List Char)) : Option (List Char) := if optTruthy a then a else b

/-- `render_symbols`: details, then a fixed-header table; the glyph falls
back to the codepoint, the math class to the shorthand. -/
def render_symbols (parse : List Char → List Node) (symbols : Symbols) : List Char :=
  render_generic parse symbols.details ++ "\n\n".data ++
  "| Symbol | Name | Math Class |\n".data ++ "| ----- | ----- | ----- |\n".data ++
  (symbols.list.map fun sym =>
    "| ".data ++ escape_special_chars (pyStrOpt (pyOr sym.value sym.codepoint)) ++
      " | ".data ++ sym.name ++ " | ".data ++
      escape_special_chars (pyStrOpt (pyOr sym.mathClass sym.mathShorthand)) ++
      " |\n".data).flatten

/-- A group payload (named `FuncGroup` here; `Group` is taken by the
ambient library). -/
structure FuncGroup where
  details : Generic
  functions : List Func

/-- `render_group`: details then every function at the base heading
level. -/
def render_group (parse : List Char → List Node) (group : FuncGroup) : List Char :=
  render_generic parse group.details ++ "\n\n".data ++
    renderFuncScope parse group.functions 2

/-- A type payload: optional constructor function and method scope. -/
structure TypeData where
  details : Generic
  ctor : Option Func
  scope : List Func

/-- `render_type`: details, the constructor and the methods one level
deeper than their headings. -/
def render_type (parse : List Char → List Node) (type_data : TypeData) : List Char :=
  let r1 := render_generic parse type_data.details ++ "\n\n".data
  let r2 :=
    match type_data.ctor with
    | some c => r1 ++ "## Constructor\n".data ++ render_func parse c 3
    | none => r1
  if type_data.scope.isEmpty then r2
  else r2 ++ "\n## Methods\n".data ++ renderFuncScope parse type_data.scope 3

/-- The typed content of a body node, one variant per renderer. -/
inductive BodyContent where
  | bhtml (g : Generic)
  | bcategory (c : Category)
  | bsymbols (s : Symbols)
  | bfunc (f : Func)
  | bgroup (g : FuncGroup)
  | btype (t : TypeData)

/-- A body node: the `kind` tag (`body.get("kind")`, possibly `None`) and
its content. -/
structure BodyNode where
  kind : Option (List Char)
  content : BodyContent

/-- The warning `render_body` logs for an unrecognized kind. -/
def unsupportedKindMsg (body_type : Option (List Char)) : List Char :=
  "Skipping unsupported body type: ".data ++ pyStrOpt body_type

/-- `render_body`: dispatch on the kind string.  The result carries the
rendered text and the log messages emitted; a payload whose variant does
not fit the kind it is dispatched under would crash the Python renderer
and is an `Except.error` here.  A kind matching none of the six branches
logs a warning and renders the empty string. -/
def render_body (parse : List Char → List Node) (body_type : Option (List Char))
    (body_content : BodyContent) : Except (List Char) (List Char × List (List Char)) :=
  if body_type = some "html".data then
    match body_content with
    | .bhtml g => .ok (render_generic parse g, [])
    | _ => .error "TypeError".data
  else if body_type = some "category".data then
    match body_content with
    | .bcategory c => .ok (render_category parse c, [])
    | _ => .error "TypeError".data
  else if body_type = some "symbols".data then
    match body_content with
    | .bsymbols s => .ok (render_symbols parse s, [])
    | _ => .error "TypeError".data
  else if body_type = some "func".data then
    match body_content with
    | .bfunc f => .ok (render_func parse f 2, [])
    | _ => .error "TypeError".data
  else if body_type = some "group".data then
    match body_content with
    | .bgroup g => .ok (render_group parse g, [])
    | _ => .error "TypeError".data
  else if body_type = some "type".data then
    match body_content with
    | .btype t => .ok (render_type parse t, [])
    | _ => .error "TypeError".data
  else
    .ok ([], [unsupportedKindMsg body_type])

/-! ## mdx_converter.py: pages, flattening, assembly -/

/-- A flattened page record, the dict `get_pages_recursive` appends.  The
seven keys are always present; optional fields model values that may be
`None`. -/
structure PageRecord where
  title : Option (List Char)
  route : Option (List Char)
  description : Option (List Char)
  part : Option (List Char)
  body : Option BodyNode
  has_children : Bool
  children_order : List (List Char)

/-- The two static marker → import-line pairs of `convert_page_to_mdx`,
scanned in dict order: the type-table widget first, then the preview
widget. -/
def typeTableImportLine : List Char :=
  "import \x7b TypeTable \x7d from \x27fumadocs-ui/components/type-table\x27;\n".data

def typstPreviewImportLine : List Char :=
  "import \x7b TypstPreview \x7d from \x27@/components/typst/preview\x27;\n".data

/-- The import block of `convert_page_to_mdx`: markers scanned in the
fixed dict order — the type-table marker, then the preview marker — and
a leading blank line when any import was added. -/
def assembleImports (body_content_str : List Char) : List Char :=
  let imports :=
    (if containsSub "<TypeTable".data body_content_str then typeTableImportLine else []) ++
    (if containsSub "<TypstPreview".data body_content_str then typstPreviewImportLine else [])
  if imports.isEmpty then [] else '\n' :: imports

/-- The final f-string of `convert_page_to_mdx`: front-matter, the
derived import block, body. -/
def assembleMdx (title : Option (List Char)) (description body_content_str : List Char) :
    List Char :=
  "---\ntitle: \"".data ++ pyStrOpt title ++ "\"\ndescription: \"".data ++
    description ++ "\"\n---\n".data ++ assembleImports body_content_str ++ "\n".data ++
    body_content_str ++ "\n".data

/-- `convert_page_to_mdx`: front-matter (title as-is, description with
double quotes backslash-escaped), derived import lines, rendered body;
a body renders through `render_body`, whose failure propagates.  The
`"Untitled"` default of `page.get("title", "Untitled")` applies only
to dicts lacking the key, which flattener records never do; a `None`
title renders as `"None"` through the f-string. -/
def convert_page_to_mdx (parse : List Char → List Node) (page : PageRecord) :
    Except (List Char) (List Char) :=
  let description := replaceChar '"' ['\\', '"'] (page.description.getD [])
  match page.body with
  | none => .ok (assembleMdx page.title description [])
  | some b =>
    match render_body parse b.kind b.content with
    | .error e => .error e
    | .ok bodyPair => .ok (assembleMdx page.title description bodyPair.1)

/-- The text `generate_meta_json` writes (the write itself goes through
the caller's oracle): 2-space-indented JSON with title, description
(newlines collapsed), quoted pages, and a root marker only when the
directory dict carries a truthy `root` key. -/
def generate_meta_json (title description : Option (List Char))
    (children_order : List (List Char)) (root : Bool) : List Char :=
  let desc := replaceChar '\n' [' '] (description.getD [])
  let pages := joinSep ", ".data (children_order.map fun e => '"' :: e ++ "\"".data)
  let root_string := if root then ",\n  \"root\": true".data else []
  "\x7b\n  \"title\": \"".data ++ pyStrOpt title ++ "\",\n  \"description\": \"".data ++
    desc ++ "\",\n  \"pages\": [".data ++ pages ++ "]".data ++ root_string ++ "\n\x7d\n".data

/-- A JSON page tree node, as `get_pages_recursive` reads it. -/
inductive JPage where
  | mk (title route description part : Option (List Char)) (body : Option BodyNode)
    (children : Option (List JPage))

def JPage.title : JPage → Option (List Char)
  | .mk t _ _ _ _ _ => t

def JPage.route : JPage → Option (List Char)
  | .mk _ r _ _ _ _ => r

def JPage.description : JPage → Option (List Char)
  | .mk _ _ d _ _ _ => d

def JPage.children : JPage → Option (List JPage)
  | .mk _ _ _ _ _ c => c

/-- One entry of the flattener's `children_order` comprehension:
`elem.get("route").split("/")[-2]`.  A child without a route raises
(`AttributeError`), a route whose split has fewer than two fields raises
(`IndexError`); otherwise the entry is the second-to-last field. -/
def childOrderEntry (elem : JPage) : Except (List Char) (List Char) :=
  match elem.route with
  | none => .error "AttributeError".data
  | some r =>
    let parts := pySplitChar '/' r
    if 2 ≤ parts.length then .ok (parts.getD (parts.length - 2) [])
    else .error "IndexError".data

/-- The whole comprehension, left to right, first exception wins. -/
def childrenOrderOf : List JPage → Except (List Char) (List (List Char))
  | [] => .ok []
  | c :: cs =>
    match childOrderEntry c with
    | .error e => .error e
    | .ok e =>
      match childrenOrderOf cs with
      | .error e2 => .error e2
      | .ok es => .ok (e :: es)

/-- The record `get_pages_recursive` appends for one node: own route
slash-stripped when truthy, description newline-collapsed and stripped
when truthy, `has_children` from the truthiness of the children value. -/
def pageRecordOf (title route description part : Option (List Char))
    (body : Option BodyNode) (childList : List JPage)
    (children_order : List (List Char)) : PageRecord :=
  PageRecord.mk title
    (match route with
     | some r => if r.isEmpty then some r else some (pyStripChar '/' r)
     | none => none)
    (match description with
     | some d => if d.isEmpty then some d else some (pyStripWs (replaceChar '\n' [' '] d))
     | none => none)
    part body (!childList.isEmpty) children_order

mutual
/-- `get_pages_recursive`: pre-order flattening; the progress callback of
the source has no observable effect on the result list and is omitted. -/
def get_pages_recursive : JPage → Except (List Char) (List PageRecord)
  | .mk title route description part body none =>
    .ok [pageRecordOf title route description part body [] []]
  | .mk title route description part body (some cs) =>
    match childrenOrderOf cs with
    | .error e => .error e
    | .ok co =>
      match getPagesRecList cs with
      | .error e => .error e
      | .ok rest => .ok (pageRecordOf title route description part body cs co :: rest)

def getPagesRecList : List JPage → Except (List Char) (List PageRecord)
  | [] => .ok []
  | c :: cs =>
    match get_pages_recursive c with
    | .error e => .error e
    | .ok l1 =>
      match getPagesRecList cs with
      | .error e => .error e
      | .ok l2 => .ok (l1 ++ l2)
end

/-! ## mdx_converter.py: output paths and per-page processing -/

/-- `pathlib` join with a relative right operand. -/
def pathJoin (a b : List Char) : List Char := a ++ '/' :: b

/-- `Path.parent`: everything before the last separator. -/
def pathParent (p : List Char) : List Char :=
  if '/' ∈ p then ((p.reverse.dropWhile (fun c => c ≠ '/')).drop 1).reverse
  else ".".data

/-- The output file a non-root page's content is written to, from
`process_single_page`: `route + "/index.mdx"` under the output base for a
page with children, `route + ".mdx"` for a leaf. -/
def output_file_path (base route : List Char) (has_children : Bool) : List Char :=
  if has_children then pathJoin (pathJoin base route) "index.mdx".data
  else pathJoin base route ++ ".mdx".data

/-- The file-system effects available to a page task; each operation may
fail with an OS error message. -/
structure FsOps where
  mkdir : List Char → Except (List Char) Unit
  write : List Char → List Char → Except (List Char) Unit

/-- The `try` body of `process_single_page`: convert, then route on
root/container/leaf, performing the writes.  Result triple is
`(status, payload, error)` where the payload is the rendered text for the
root and the page title otherwise. -/
def processSinglePageBody (parse : List Char → List Node) (fs : FsOps)
    (output_base_path : List Char) (page : PageRecord) :
    Except (List Char) (List Char × Option (List Char) × Option (List Char)) := do
  let mdx_content ← convert_page_to_mdx parse page
  match page.route with
  | none => return ("ROOT_INDEX".data, some mdx_content, none)
  | some r =>
    if r.isEmpty then return ("ROOT_INDEX".data, some mdx_content, none)
    else if page.has_children then do
      let folder := pathJoin output_base_path r
      let _ ← fs.mkdir folder
      let _ ← fs.write (pathJoin folder "meta.json".data)
        (generate_meta_json page.title page.description page.children_order false)
      let _ ← fs.write (pathJoin folder "index.mdx".data) mdx_content
      return ("OK".data, page.title, none)
    else do
      let folder := pathJoin output_base_path r
      let _ ← fs.mkdir (pathParent folder)
      let _ ← fs.write (folder ++ ".mdx".data) mdx_content
      return ("OK".data, page.title, none)

/-- `process_single_page`: the `try`/`except` wrapper.  Any failure of
the body becomes the record `("ERROR", page title, message)`; the
`'Unknown'` default of `page.get('title', 'Unknown')` applies only to
dicts lacking the key, which records never do. -/
def process_single_page (parse : List Char → List Node) (fs : FsOps)
    (output_base_path : List Char) (page : PageRecord) :
    List Char × Option (List Char) × Option (List Char) :=
  match processSinglePageBody parse fs output_base_path page with
  | .ok r => r
  | .error e => ("ERROR".data, page.title, some e)

/-- The task collection of `generate_mdx_docs`: one result record per
submitted page, regardless of individual failures. -/
def process_all_pages (parse : List Char → List Node) (fs : FsOps)
    (output_base_path : List Char) (pages : List PageRecord) :
    List (List Char × Option (List Char) × Option (List Char)) :=
  pages.map (process_single_page parse fs output_base_path)

/-- A header cell holding plain text, for table statements. -/
def thCell (t : List Char) : Node := .tag "th".data [] [.text t]

/-- A body cell holding plain text, for table statements. -/
def tdCell (t : List Char) : Node := .tag "td".data [] [.text t]

/-- A table with a `thead` holding one header row of `th` cells and a
`tbody` holding one row of `td` cells. -/
def simpleTable (hs cs : List (List Char)) : Node :=
  .tag "table".data []
    [.tag "thead".data [] [.tag "tr".data [] (hs.map thCell)],
     .tag "tbody".data [] [.tag "tr".data [] (cs.map tdCell)]]

/-- The number of `h1` elements anywhere in a forest. -/
def countH1Forest : List Node → Nat
  | [] => 0
  | .text _ :: ns => countH1Forest ns
  | .tag nm _ kids :: ns =>
    (if nm = "h1".data then 1 else 0) + countH1Forest kids + countH1Forest ns

/-- A list item holding plain text, for list statements. -/
def liCell (t : List Char) : Node := .tag "li".data [] [.text t]

theorem replaceChar_append (p : Char) (r a b : List Char) :
    replaceChar p r (a ++ b) = replaceChar p r a ++ replaceChar p r b := by
  induction a with
  | nil => rfl
  | cons c a ih => simp [replaceChar, ih]

theorem escape_mdx_text_nil : escape_mdx_text [] = [] := rfl

theorem escape_mdx_text_cons (c : Char) (s : List Char) :
    escape_mdx_text (c :: s) = escMdxChar c ++ escape_mdx_text s := by
  by_cases h1 : c = '\\'
  · subst h1; simp [escape_mdx_text, replaceChar, replaceChar_append, escMdxChar, mdxSpecialChars]
  by_cases h2 : c = '&'
  · subst h2; simp [escape_mdx_text, replaceChar, replaceChar_append, escMdxChar, mdxSpecialChars]
  by_cases h3 : c = '<'
  · subst h3; simp [escape_mdx_text, replaceChar, replaceChar_append, escMdxChar, mdxSpecialChars]
  by_cases h4 : c = '>'
  · subst h4; simp [escape_mdx_text, replaceChar, replaceChar_append, escMdxChar, mdxSpecialChars]
  by_cases h5 : c = '\x7b'
  · subst h5; simp [escape_mdx_text, replaceChar, replaceChar_append, escMdxChar, mdxSpecialChars]
  by_cases h6 : c = '\x7d'
  · subst h6; simp [escape_mdx_text, replaceChar, replaceChar_append, escMdxChar, mdxSpecialChars]
  by_cases h7 : c = '*'
  · subst h7; simp [escape_mdx_text, replaceChar, replaceChar_append, escMdxChar, mdxSpecialChars]
  by_cases h8 : c = '_'
  · subst h8; simp [escape_mdx_text, replaceChar, replaceChar_append, escMdxChar, mdxSpecialChars]
  by_cases h9 : c = '\x60'
  · subst h9; simp [escape_mdx_text, replaceChar, replaceChar_append, escMdxChar, mdxSpecialChars]
  · simp [escape_mdx_text, replaceChar, escMdxChar, mdxSpecialChars,
      h1, h2, h3, h4, h5, h6, h7, h8, h9]

theorem escape_mdx_text_eq_charConcatMap (s : List Char) :
    escape_mdx_text s = charConcatMap escMdxChar s := by
  induction s with
  | nil => rfl
  | cons c s ih => rw [escape_mdx_text_cons, ih]; rfl

theorem removeEscapes_cons_ne (c : Char) (s : List Char) (h : ¬ c = '\\') :
    removeEscapes (c :: s) = c :: removeEscapes s := by
  rw [removeEscapes.eq_def]
  simp [h]

theorem removeEscapes_backslash (d : Char) (t : List Char) (h : d ∈ mdxSpecialChars) :
    removeEscapes ('\\' :: d :: t) = d :: removeEscapes t := by
  rw [removeEscapes.eq_def]
  simp [h]

theorem removeEscapes_escape (s : List Char) :
    removeEscapes (escape_mdx_text s) = s := by
  induction s with
  | nil => rfl
  | cons c s ih =>
    rw [escape_mdx_text_cons]
    by_cases h : c ∈ mdxSpecialChars
    · simp [escMdxChar, h, removeEscapes_backslash, ih]
    · have hb : ¬ c = '\\' := by
        intro hc; exact h (by rw [hc]; simp [mdxSpecialChars])
      simp [escMdxChar, h, removeEscapes_cons_ne _ _ hb, ih]

/-! ## Claim C3 -/

/-- C3: `escape_mdx_text` escapes exactly backslash, ampersand, `<`, `>`,
the braces, asterisk, underscore and backtick, each by prefixing a
backslash, with the backslash pass applied first (the nine-pass
definition equals the one-pass per-character map on exactly that
character set); and the escaping is lossless: removing the inserted
escape backslashes from the output reproduces the input. -/
theorem C3_escaping_charwise_and_lossless :
    (∀ s : List Char, escape_mdx_text s = charConcatMap escMdxChar s) ∧
    (∀ s : List Char, removeEscapes (escape_mdx_text s) = s) :=
  ⟨escape_mdx_text_eq_charConcatMap, removeEscapes_escape⟩

/-! ## Claim C7 -/

/-- C7 counterexample: a `span` in inline context does not contribute the
inline rendering of its children (`"x"`); `process_inline` returns its
re-serialized markup `"<span>x</span>"` instead. -/
theorem C7_counterexample :
    process_inline (.tag "span".data [] [.text "x".data]) = "<span>x</span>".data ∧
    process_inline_list [.text "x".data] = "x".data ∧
    ("<span>x</span>".data : List Char) ≠ "x".data := by
  refine ⟨?_, ?_, ?_⟩ <;> decide

/-- C7 (amended): in inline context every element whose tag is not one of
`img`, `span`, `a`, `strong`, `b`, `em`, `i`, `code` is rendered by
recursing into the inline rendering of its children with the wrapper
dropped; a `span` element is re-serialized to its own markup
(`str(element)`) instead. -/
theorem C7_inline_dispatch :
    (∀ (name : List Char) attrs kids,
      name ∉ ["img".data, "span".data, "a".data, "strong".data,
        "b".data, "em".data, "i".data, "code".data] →
      process_inline (.tag name attrs kids) = process_inline_list kids) ∧
    (∀ attrs kids,
      process_inline (.tag "span".data attrs kids) =
        nodeToHtml (.tag "span".data attrs kids)) := by
  constructor
  · intro name attrs kids h
    simp only [List.mem_cons, List.mem_singleton, not_or] at h
    obtain ⟨h1, h2, h3, h4, h5, h6, h7, h8, -⟩ := h
    simp [process_inline, h1, h2, h3, h4, h5, h6, h7, h8]
  · intro attrs kids
    simp [process_inline]

/-- C7 witness: the dispatch theorem applied to a concrete unlisted tag. -/
theorem C7_witness :
    process_inline (.tag "foo".data [] [.text "y".data]) =
      process_inline_list [.text "y".data] :=
  C7_inline_dispatch.1 "foo".data [] [.text "y".data] (by decide)

/-! ## Claim C2 -/

/-- C2 counterexample: the leaf route `"a/index"` and the container route
`"a"` differ, yet `process_single_page` derives the same output file
`out/a/index.mdx` for both. -/
theorem C2_counterexample :
    output_file_path "out".data "a".data true =
      output_file_path "out".data "a/index".data false ∧
    ("a".data : List Char) ≠ "a/index".data := by
  refine ⟨?_, ?_⟩ <;> decide

/-- C2 (amended): among non-root pages of the same kind the derived
output paths are injective in the route — two leaves, or two container
pages, with different routes never collide — but a leaf and a container
page collide exactly when the leaf's route is the container's route
followed by `"/index"`. -/
theorem C2_output_path_uniqueness :
    (∀ base r1 r2 : List Char, r1 ≠ r2 →
      output_file_path base r1 false ≠ output_file_path base r2 false) ∧
    (∀ base r1 r2 : List Char, r1 ≠ r2 →
      output_file_path base r1 true ≠ output_file_path base r2 true) ∧
    (∀ base r1 r2 : List Char,
      output_file_path base r1 false = output_file_path base r2 true ↔
        r1 = r2 ++ "/index".data) := by
  refine ⟨?_, ?_, ?_⟩
  · intro base r1 r2 hne h
    simp only [output_file_path, pathJoin, if_neg, Bool.false_eq_true, ite_false,
      List.append_assoc, List.cons_append] at h
    have h2 : '/' :: (r1 ++ ".mdx".data) = '/' :: (r2 ++ ".mdx".data) :=
      List.append_cancel_left h
    have h3 : r1 ++ ".mdx".data = r2 ++ ".mdx".data := by
      simpa using h2
    exact hne (List.append_cancel_right h3)
  · intro base r1 r2 hne h
    simp only [output_file_path, pathJoin, ite_true, List.append_assoc,
      List.cons_append] at h
    have h2 : '/' :: (r1 ++ '/' :: "index.mdx".data) =
        '/' :: (r2 ++ '/' :: "index.mdx".data) := List.append_cancel_left h
    have h3 : r1 ++ '/' :: "index.mdx".data = r2 ++ '/' :: "index.mdx".data := by
      simpa using h2
    exact hne (List.append_cancel_right h3)
  · intro base r1 r2
    constructor
    · intro h
      simp only [output_file_path, pathJoin, Bool.false_eq_true, ite_false, ite_true,
        List.append_assoc, List.cons_append] at h
      have h2 : '/' :: (r1 ++ ".mdx".data) = '/' :: (r2 ++ '/' :: "index.mdx".data) :=
        List.append_cancel_left h
      have h3 : r1 ++ ".mdx".data = r2 ++ '/' :: "index.mdx".data := by
        simpa using h2
      have h4 : r2 ++ '/' :: "index.mdx".data = (r2 ++ "/index".data) ++ ".mdx".data := by
        simp [List.append_assoc]
      rw [h4] at h3
      exact List.append_cancel_right h3
    · intro h
      subst h
      simp [output_file_path, pathJoin, List.append_assoc]

/-- C2 witness: the same-kind injectivity applied to the concrete routes
`"a"` and `"b"`. -/
theorem C2_witness :
    output_file_path "out".data "a".data false ≠
      output_file_path "out".data "b".data false :=
  C2_output_path_uniqueness.1 "out".data "a".data "b".data (by decide)

/-! ## Claim C4 -/

theorem findAllInList_thCells (hs : List (List Char)) :
    findAllInList [['t','h'], ['t','d']] (hs.map thCell) = hs.map thCell := by
  induction hs with
  | nil => rfl
  | cons h t ih => simp [findAllInList, findAllInNode, thCell, ih]

theorem findAllInList_tdCells (cs : List (List Char)) :
    findAllInList [['t','d'], ['t','h']] (cs.map tdCell) = cs.map tdCell := by
  induction cs with
  | nil => rfl
  | cons h t ih => simp [findAllInList, findAllInNode, tdCell, ih]

theorem findTagInList_tbody_thCells (hs : List (List Char)) :
    findTagInList ['t','b','o','d','y'] (hs.map thCell) = none := by
  induction hs with
  | nil => rfl
  | cons h t ih => simp [findTagInList, findTagInNode, thCell, ih]

/-- C4: on the spec's example table `process_table` yields exactly the
three pipe rows; in general (`simpleTable`) every body row is emitted
with exactly its own cells — the row's cell list comes from the row, not
from the header, so a short row is not padded — and when no `tbody`
exists the body rows come from the table's remaining direct `tr`
children. -/
theorem C4_table_shape :
    process_table (.tag "table".data []
      [Node.tag "thead".data [] [Node.tag "tr".data []
         [Node.tag "th".data [] [.text "Name".data],
          Node.tag "th".data [] [.text "Type".data]]],
       Node.tag "tbody".data [] [Node.tag "tr".data []
         [Node.tag "td".data [] [.text "x".data],
          Node.tag "td".data [] [.text "int".data]]]])
      = "| Name | Type |\n| --- | --- |\n| x | int |".data ∧
    (∀ hs cs : List (List Char), hs ≠ [] → cs ≠ [] →
      process_table (simpleTable hs cs) =
        joinSep "\n".data
          ["| ".data ++
             joinSep " | ".data (hs.map fun t => tableCellContent (thCell t)) ++ " |".data,
           "| ".data ++ joinSep " | ".data (hs.map fun _ => "---".data) ++ " |".data,
           "| ".data ++
             joinSep " | ".data (cs.map fun t => tableCellContent (tdCell t)) ++ " |".data]) ∧
    process_table (.tag "table".data []
      [Node.tag "thead".data [] [Node.tag "tr".data []
         [Node.tag "th".data [] [.text "Name".data],
          Node.tag "th".data [] [.text "Type".data]]],
       Node.tag "tr".data []
         [Node.tag "td".data [] [.text "x".data],
          Node.tag "td".data [] [.text "int".data]]])
      = "| Name | Type |\n| --- | --- |\n| x | int |".data := by
  refine ⟨by decide, ?_, by decide⟩
  intro hs cs h1 h2
  simp [process_table, simpleTable, childrenOf, findTagInList, findTagInNode,
    directChildTags, findAllInList_thCells, findAllInList_tdCells,
    findTagInList_tbody_thCells, List.map_map, Function.comp, h1, h2]
  simp [Function.comp_def, List.map_const']

/-- C4 witness: the general row statement applied to a two-column header
with a one-cell body row: the body row keeps exactly one cell. -/
theorem C4_witness :
    process_table (simpleTable ["Name".data, "Type".data] ["x".data]) =
      joinSep "\n".data
        ["| ".data ++ joinSep " | ".data
            (["Name".data, "Type".data].map fun t => tableCellContent (thCell t)) ++ " |".data,
         "| ".data ++ joinSep " | ".data
            (["Name".data, "Type".data].map fun _ => "---".data) ++ " |".data,
         "| ".data ++ joinSep " | ".data
            (["x".data].map fun t => tableCellContent (tdCell t)) ++ " |".data] :=
  C4_table_shape.2.1 ["Name".data, "Type".data] ["x".data] (by decide) (by decide)

/-! ## Claim C5 -/

theorem countH1_removeH1 (f : List Node) :
    countH1Forest (removeH1Forest f) = 0 := by
  induction f using removeH1Forest.induct <;>
    simp [removeH1Forest, countH1Forest, *]

/-- C5: `html_to_mdx` first deletes every `h1` element of the parsed
forest (the surviving forest holds no `h1` at any depth, so no heading
is derived from one), and each `h2`..`h6` element in block context
renders as `#`×level, a space, and the element's tag-stripped text. -/
theorem C5_h1_removed_heading_levels :
    (∀ f : List Node, countH1Forest (removeH1Forest f) = 0) ∧
    (∀ (parse : List Char → List Node) (s : List Char),
      html_to_mdx parse s =
        if s.isEmpty then [] else renderForest (removeH1Forest (parse s))) ∧
    (∀ (attrs : List (List Char × List Char)) (kids : List Node),
      process_element (.tag "h2".data attrs kids) = some ("## ".data ++ getTextStripList kids) ∧
      process_element (.tag "h3".data attrs kids) = some ("### ".data ++ getTextStripList kids) ∧
      process_element (.tag "h4".data attrs kids) = some ("#### ".data ++ getTextStripList kids) ∧
      process_element (.tag "h5".data attrs kids) = some ("##### ".data ++ getTextStripList kids) ∧
      process_element (.tag "h6".data attrs kids) = some ("###### ".data ++ getTextStripList kids)) := by
  refine ⟨countH1_removeH1, fun parse s => rfl, ?_⟩
  intro attrs kids
  refine ⟨?_, ?_, ?_, ?_, ?_⟩ <;>
    simp [process_element, process_heading, nameOf, getTextStrip, List.replicate]

/-! ## Claim C6 -/

theorem processListItems_liCells (ordered : Bool) (depth : Nat) (texts : List (List Char))
    (i : Nat) :
    processListItems ordered depth i (texts.map liCell) =
      (List.enumFrom i texts).map fun p =>
        listIndent depth ++ listMarker ordered p.1 ++ pyStripWs (process_inline (.text p.2)) := by
  induction texts generalizing i with
  | nil => rfl
  | cons t ts ih => simp [processListItems, liCell, processLiParts, ih, List.enumFrom]

/-- C6: the spec's nested-list fragment renders to exactly
`- A`, `- B`, `  - C` (also through the block renderer), and in general a
list of plain-text items renders one entry per direct `li`, ordered lists
numbering from 1, unordered with a dash, indented two spaces per nesting
level. -/
theorem C6_list_fidelity :
    process_list (.tag "ul".data []
      [Node.tag "li".data [] [.text "A".data],
       Node.tag "li".data [] [.text "B".data,
         Node.tag "ul".data [] [Node.tag "li".data [] [.text "C".data]]]]) 0
      = "- A\n- B\n  - C".data ∧
    renderForest [.tag "ul".data []
      [Node.tag "li".data [] [.text "A".data],
       Node.tag "li".data [] [.text "B".data,
         Node.tag "ul".data [] [Node.tag "li".data [] [.text "C".data]]]]]
      = "- A\n- B\n  - C".data ∧
    (∀ (texts : List (List Char)) (depth : Nat),
      process_list (.tag "ol".data [] (texts.map liCell)) depth =
        joinSep "\n".data (texts.enum.map fun p =>
          listIndent depth ++ listMarker true p.1 ++
            pyStripWs (process_inline (.text p.2)))) ∧
    (∀ (texts : List (List Char)) (depth : Nat),
      process_list (.tag "ul".data [] (texts.map liCell)) depth =
        joinSep "\n".data (texts.enum.map fun p =>
          listIndent depth ++ listMarker false p.1 ++
            pyStripWs (process_inline (.text p.2)))) := by
  refine ⟨by decide, by decide, ?_, ?_⟩ <;>
    intro texts depth <;>
      simp [process_list, List.enum, processListItems_liCells]

/-! ## Claim C8 -/

/-- C8: for a body whose kind is none of `html`, `category`, `symbols`,
`func`, `group`, `type`, `render_body` returns the empty string together
with the "Skipping unsupported body type" warning — an `ok` result, never
an exception. -/
theorem C8_unknown_kind_safe :
    ∀ (parse : List Char → List Node) (k : List Char) (content : BodyContent),
      k ∉ ["html".data, "category".data, "symbols".data, "func".data,
        "group".data, "type".data] →
      render_body parse (some k) content = .ok ([], [unsupportedKindMsg (some k)]) ∧
      unsupportedKindMsg (some k) = "Skipping unsupported body type: ".data ++ k := by
  intro parse k content h
  simp only [List.mem_cons, List.not_mem_nil, or_false, not_or] at h
  obtain ⟨h1, h2, h3, h4, h5, h6⟩ := h
  refine ⟨?_, ?_⟩
  · simp [render_body, h1, h2, h3, h4, h5, h6]
  · simp [unsupportedKindMsg, pyStrOpt]

/-- C8 witness: the spec's `"unknown-widget"` kind degrades to an empty
body and a logged warning. -/
theorem C8_witness :
    render_body (fun _ => []) (some "unknown-widget".data) (BodyContent.bhtml Generic.gother) =
      .ok ([], ["Skipping unsupported body type: unknown-widget".data]) := by
  have h := C8_unknown_kind_safe (fun _ => []) "unknown-widget".data
    (BodyContent.bhtml Generic.gother) (by decide)
  rw [h.1, h.2]
  rfl

/-! ## Claim C9 -/

/-- C9: whenever the `try` body of `process_single_page` fails (any
exception while converting or writing), the wrapper returns the record
`("ERROR", page title, message)` instead of propagating; a success is
returned unchanged; and the batch produces one result per page, each
depending only on its own page, so one failure cannot abort the others. -/
theorem C9_page_failure_isolated :
    (∀ (parse : List Char → List Node) (fs : FsOps) (base : List Char)
        (page : PageRecord) (e : List Char),
      processSinglePageBody parse fs base page = .error e →
      process_single_page parse fs base page = ("ERROR".data, page.title, some e)) ∧
    (∀ (parse : List Char → List Node) (fs : FsOps) (base : List Char)
        (page : PageRecord) (r : List Char × Option (List Char) × Option (List Char)),
      processSinglePageBody parse fs base page = .ok r →
      process_single_page parse fs base page = r) ∧
    (∀ (parse : List Char → List Node) (fs : FsOps) (base : List Char)
        (pages : List PageRecord) (i : Nat),
      (process_all_pages parse fs base pages)[i]? =
        (pages[i]?).map (process_single_page parse fs base)) := by
  refine ⟨?_, ?_, ?_⟩
  · intro parse fs base page e h
    simp [process_single_page, h]
  · intro parse fs base page r h
    simp [process_single_page, h]
  · intro parse fs base pages i
    simp [process_all_pages]

/-- C9 witness: a write failure on one concrete page yields the error
record with the page's title and the OS message. -/
theorem C9_witness :
    process_single_page (fun _ => [])
      ⟨fun _ => .error "disk full".data, fun _ _ => .error "disk full".data⟩
      "out".data
      ⟨some "T".data, some "a".data, none, none, none, false, []⟩ =
      ("ERROR".data, some "T".data, some "disk full".data) :=
  C9_page_failure_isolated.1 (fun _ => [])
    ⟨fun _ => .error "disk full".data, fun _ _ => .error "disk full".data⟩
    "out".data ⟨some "T".data, some "a".data, none, none, none, false, []⟩
    "disk full".data (by rfl)

/-! ## Claim C10 -/

/-- C10: every successful `convert_page_to_mdx` output starts with the
front-matter block in which the title value is embedded verbatim between
the double quotes (no escaping — `pyStrOpt (some t) = t`), while the
description has its double quotes backslash-escaped. -/
theorem C10_front_matter_title_verbatim :
    (∀ (parse : List Char → List Node) (page : PageRecord) (r : List Char),
      convert_page_to_mdx parse page = .ok r →
      ∃ tail, r = "---\ntitle: \"".data ++ pyStrOpt page.title ++
        "\"\ndescription: \"".data ++
        replaceChar '"' ['\\', '"'] (page.description.getD []) ++
        "\"\n---\n".data ++ tail) ∧
    (∀ t : List Char, pyStrOpt (some t) = t) := by
  refine ⟨?_, fun t => rfl⟩
  intro parse page r h
  have key : ∀ (bs : List Char), r = assembleMdx page.title
      (replaceChar '"' ['\\', '"'] (page.description.getD [])) bs →
      ∃ tail, r = "---\ntitle: \"".data ++ pyStrOpt page.title ++
        "\"\ndescription: \"".data ++
        replaceChar '"' ['\\', '"'] (page.description.getD []) ++
        "\"\n---\n".data ++ tail := by
    intro bs hr
    refine ⟨assembleImports bs ++ "\n".data ++ bs ++ "\n".data, ?_⟩
    rw [hr, assembleMdx]
    simp [List.append_assoc]
  cases hb : page.body with
  | none =>
    simp only [convert_page_to_mdx, hb, Except.ok.injEq] at h
    exact key [] h.symm
  | some b =>
    cases hrb : render_body parse b.kind b.content with
    | error e =>
      simp only [convert_page_to_mdx, hb, hrb] at h
      exact Except.noConfusion h
    | ok bp =>
      simp only [convert_page_to_mdx, hb, hrb, Except.ok.injEq] at h
      exact key bp.1 h.symm

/-- C10 witness: a page titled `a"b` keeps the quote unescaped in the
title line while the (empty) description is escaped-quoted. -/
theorem C10_witness :
    ∃ tail,
      "---\ntitle: \"a\"b\"\ndescription: \"\"\n---\n\n\n".data =
        "---\ntitle: \"".data ++ pyStrOpt (some "a\"b".data) ++
          "\"\ndescription: \"".data ++
          replaceChar '"' ['\\', '"'] ((none : Option (List Char)).getD []) ++
          "\"\n---\n".data ++ tail :=
  C10_front_matter_title_verbatim.1 (fun _ => [])
    ⟨some "a\"b".data, none, none, none, none, false, []⟩
    "---\ntitle: \"a\"b\"\ndescription: \"\"\n---\n\n\n".data (by rfl)

/-! ## Claim C1 -/

/-- C1 counterexample: a child whose route `"a/b"` has the non-empty last
segment `"b"` is recorded in its parent's `children_order` as `"a"` — the
flattener takes the split's index `-2`, not the last segment. -/
theorem C1_counterexample :
    (match get_pages_recursive (JPage.mk (some "P".data) (some "/p/".data) none none none
        (some [JPage.mk (some "C".data) (some "a/b".data) none none none none])) with
     | .ok (r :: _) => r.children_order
     | _ => []) = ["a".data] ∧
    (pySplitChar '/' "a/b".data).getLastD [] = "b".data ∧
    ("a".data : List Char) ≠ "b".data := by
  refine ⟨?_, ?_, ?_⟩ <;> decide

/-- C1 (amended): each `children_order` entry is the second-to-last field
of the slash-split of the child's raw route (the last path segment only
when the route ends with a slash); entries follow the children's order;
the head record of a flattening carries exactly the entries of its
children. -/
theorem C1_children_order_from_split :
    (∀ (elem : JPage) (r : List Char), elem.route = some r →
      2 ≤ (pySplitChar '/' r).length →
      childOrderEntry elem =
        .ok ((pySplitChar '/' r).getD ((pySplitChar '/' r).length - 2) [])) ∧
    (∀ (cs : List JPage) (os : List (List Char)), childrenOrderOf cs = .ok os →
      os.length = cs.length ∧
      ∀ i, i < cs.length →
        childOrderEntry (cs.getD i (JPage.mk none none none none none none)) =
          .ok (os.getD i [])) ∧
    (∀ (title route description part : Option (List Char)) (body : Option BodyNode)
        (cs : List JPage) (l : List PageRecord),
      get_pages_recursive (JPage.mk title route description part body (some cs)) = .ok l →
      ∃ r rest, l = r :: rest ∧ childrenOrderOf cs = .ok r.children_order) := by
  refine ⟨?_, ?_, ?_⟩
  · intro elem r hr h2
    simp [childOrderEntry, hr, h2]
  · intro cs
    induction cs with
    | nil =>
      intro os h
      simp [childrenOrderOf] at h
      subst h
      refine ⟨rfl, ?_⟩
      intro i hi
      simp at hi
    | cons c cs ih =>
      intro os h
      cases hce : childOrderEntry c with
      | error e => simp [childrenOrderOf, hce] at h
      | ok e =>
        cases ho : childrenOrderOf cs with
        | error e2 => simp [childrenOrderOf, hce, ho] at h
        | ok es =>
          simp only [childrenOrderOf, hce, ho, Except.ok.injEq] at h
          subst h
          obtain ⟨hlen, hidx⟩ := ih es ho
          refine ⟨by simp [hlen], ?_⟩
          intro i hi
          cases i with
          | zero => simpa using hce
          | succ j =>
            simpa using hidx j (by simpa using hi)
  · intro title route description part body cs l h
    cases hco : childrenOrderOf cs with
    | error e => simp [get_pages_recursive, hco] at h
    | ok co =>
      cases hgl : getPagesRecList cs with
      | error e => simp [get_pages_recursive, hco, hgl] at h
      | ok rest =>
        simp only [get_pages_recursive, hco, hgl, Except.ok.injEq] at h
        subst h
        exact ⟨_, _, rfl, by simp [pageRecordOf]⟩

/-- C1 witness: a trailing-slash route `"/p/q/"` records `"q"`, the
split's second-to-last field. -/
theorem C1_witness :
    childOrderEntry (JPage.mk none (some "/p/q/".data) none none none none) =
      .ok ((pySplitChar '/' "/p/q/".data).getD
        ((pySplitChar '/' "/p/q/".data).length - 2) []) :=
  C1_children_order_from_split.1 (JPage.mk none (some "/p/q/".data) none none none none)
    "/p/q/".data (by rfl) (by decide)
